import Mathlib

/-!
Shallow embedding of the Soroban Dutch-auction contract (`src/lib.rs`).

The contract's typed key-value store (`DataKey` keys `Admin`, `TokenId`,
`ItemId`, `Price`, `MinPrice`, `Timestamp`, `Slope`, `Nonce(id)`) is a closed
tagged set with no two logical entities sharing a key, so it is embedded as a
record with one `Option` field per key (plus an association list for the
per-identity nonce family).  `BigInt` values are `Int` (arbitrary-precision
signed), `u64` timestamps are `Nat` with the checked subtraction made
explicit, `BytesN<32>` asset handles are abstract `Nat` handles.  Calls that
panic in Rust (missing storage key, `u64` underflow, `BigInt` division by
zero, rejected token transfer, double initialization) return `Except Err`;
the hosting ledger rolls back an aborted call as a unit, so an `Except.error`
result leaves the caller with the unchanged pre-call state.
-/

namespace DutchAuction

/-- A `soroban_auth::Identifier`: an abstract account or contract identity. -/
inductive Identifier where
  | Account : Nat → Identifier
  | Contract : Nat → Identifier
deriving DecidableEq, Repr

/-- A `BytesN<32>` asset/contract handle, kept abstract. -/
abbrev TokenId := Nat

/-- The ways a contract invocation can abort (Rust panics / host traps). -/
inductive Err where
  /-- a storage key that must exist is absent (`unwrap` on a missing key) -/
  | missingData
  /-- a `u64` subtraction underflow in `compute_price` -/
  | underflow
  /-- a `BigInt` division by zero in `compute_price` -/
  | divZero
  /-- the token interface declined a transfer -/
  | xferRejected
  /-- the `initialize` entry point called when the admin key is already set -/
  | alreadyInitialized
deriving DecidableEq, Repr

/-- The contract instance's persistent data, one field per `DataKey`. -/
structure ContractData where
  admin : Option Identifier
  tokenId : Option TokenId
  itemId : Option TokenId
  price : Option Int
  minPrice : Option Int
  timestamp : Option Nat
  slope : Option Int
  nonces : List (Identifier × Int)
deriving DecidableEq, Repr

/-- Rust `get_minimum_price`: `e.data().get(MinPrice).unwrap_or(Ok(zero)).unwrap()`. -/
def get_minimum_price (d : ContractData) : Int :=
  d.minPrice.getD 0

/-- Rust `get_starting_price`: `e.data().get(Price).unwrap_or(Ok(zero)).unwrap()`. -/
def get_starting_price (d : ContractData) : Int :=
  d.price.getD 0

/-- Rust `get_slope`: `e.data().get(Slope).unwrap().unwrap()` — panics when absent. -/
def get_slope (d : ContractData) : Except Err Int :=
  match d.slope with
  | some s => Except.ok s
  | none => Except.error Err.missingData

/-- Rust `get_starting_time`: `e.data().get(Timestamp).unwrap().unwrap()` — panics when absent. -/
def get_starting_time (d : ContractData) : Except Err Nat :=
  match d.timestamp with
  | some t => Except.ok t
  | none => Except.error Err.missingData

/-- Rust `get_token_id`: `e.data().get(TokenId).unwrap().unwrap()` — panics when absent. -/
def get_token_id (d : ContractData) : Except Err TokenId :=
  match d.tokenId with
  | some t => Except.ok t
  | none => Except.error Err.missingData

/-- Rust `get_item_id`: `e.data().get(ItemId).unwrap().unwrap()` — panics when absent. -/
def get_item_id (d : ContractData) : Except Err TokenId :=
  match d.itemId with
  | some t => Except.ok t
  | none => Except.error Err.missingData

/-- Rust `has_administrator`: `e.data().has(Admin)`. -/
def has_administrator (d : ContractData) : Bool :=
  d.admin.isSome

/-- Rust `read_administrator`: `e.data().get_unchecked(Admin).unwrap()` — panics when absent. -/
def read_administrator (d : ContractData) : Except Err Identifier :=
  match d.admin with
  | some a => Except.ok a
  | none => Except.error Err.missingData

/-- Lookup in the `Nonce(id)` key family. -/
def lookupNonce (l : List (Identifier × Int)) (id : Identifier) : Option Int :=
  (l.find? (fun p => decide (p.1 = id))).map Prod.snd

/-- Rust `read_nonce`: `e.data().get(Nonce(id)).unwrap_or_else(zero).unwrap()`. -/
def read_nonce (d : ContractData) (id : Identifier) : Int :=
  (lookupNonce d.nonces id).getD 0

/-- Checked `u64` subtraction: `current_time - starting_time` traps on underflow. -/
def checked_sub (a b : Nat) : Except Err Nat :=
  if b ≤ a then Except.ok (a - b) else Except.error Err.underflow

/-- A `BigInt` division: truncated (toward-zero) division, trapping on a zero divisor. -/
def bigint_div (a b : Int) : Except Err Int :=
  if b = 0 then Except.error Err.divZero else Except.ok (Int.tdiv a b)

/-- Rust `compute_price` from `src/lib.rs` lines 142–157, with the ledger timestamp
passed explicitly as `current_time`. -/
def compute_price (d : ContractData) (current_time : Nat) : Except Err Int := do
  let starting_price := get_starting_price d
  let minimum_price := get_minimum_price d
  let starting_time ← get_starting_time d
  let elapsed_time ← checked_sub current_time starting_time
  let rev_slope ← get_slope d
  let q ← bigint_div (Int.ofNat elapsed_time) rev_slope
  let computed := starting_price - q
  if computed < minimum_price then pure minimum_price else pure computed

/-- Modelled from the spec: per-asset state of the external token interface
(§6), which is an imported contract not present under `src/` — balances per
identity, and allowances indexed by owner then spender. -/
structure TokenState where
  balances : Identifier → Int
  allowances : Identifier → Identifier → Int

/-- Overwrite one identity's balance. -/
def setBal (t : TokenState) (i : Identifier) (v : Int) : TokenState :=
  { t with balances := fun j => if j = i then v else t.balances j }

/-- Overwrite one (owner, spender) allowance. -/
def setAllow (t : TokenState) (o s : Identifier) (v : Int) : TokenState :=
  { t with allowances := fun o' s' => if o' = o ∧ s' = s then v else t.allowances o' s' }

/-- Modelled from the spec: `transfer` (§6, `xfer` in the source) — moves
`amount` from the invoking contract's own balance to `to_identity`; the token
interface declines a negative amount or an insufficient balance (§7
`TransferRejected`). -/
def xfer (t : TokenState) (invoker dest : Identifier) (amount : Int) : Except Err TokenState :=
  if 0 ≤ amount ∧ amount ≤ t.balances invoker then
    Except.ok (setBal (setBal t invoker (t.balances invoker - amount)) dest
      ((setBal t invoker (t.balances invoker - amount)).balances dest + amount))
  else Except.error Err.xferRejected

/-- Modelled from the spec: `transfer_from` (§6, `xfer_from` in the source) —
moves `amount` from `frm`'s balance to `to`, contingent on prior authorization
of at least `amount` for the invoking spender; declines otherwise (§7). -/
def xfer_from (t : TokenState) (spender frm dest : Identifier) (amount : Int) :
    Except Err TokenState :=
  if 0 ≤ amount ∧ amount ≤ t.allowances frm spender ∧ amount ≤ t.balances frm then
    Except.ok (setAllow
      (setBal (setBal t frm (t.balances frm - amount)) dest
        ((setBal t frm (t.balances frm - amount)).balances dest + amount))
      frm spender (t.allowances frm spender - amount))
  else Except.error Err.xferRejected

/-- The world a contract invocation sees: the instance's data, every token
contract's state (keyed by its 32-byte id), the current contract id, and the
ledger timestamp. -/
structure Env where
  data : ContractData
  tokens : TokenId → TokenState
  current : TokenId
  time : Nat

/-- Rust `get_contract_id`: `Identifier::Contract(e.get_current_contract())`. -/
def get_contract_id (e : Env) : Identifier :=
  Identifier.Contract e.current

/-- Replace one token contract's state. -/
def setToken (e : Env) (id : TokenId) (t : TokenState) : Env :=
  { e with tokens := fun j => if j = id then t else e.tokens j }

/-- Rust `transfer_to_admin`: `xfer_from` of `amount` payment-asset units from
`frm` to the admin, the auction contract acting as invoker/spender. -/
def transfer_to_admin (e : Env) (frm : Identifier) (amount : Int) : Except Err Env := do
  let token_id ← get_token_id e.data
  let admin_id ← read_administrator e.data
  let t ← xfer_from (e.tokens token_id) (get_contract_id e) frm admin_id amount
  pure (setToken e token_id t)

/-- Rust `empty_contract`: `xfer` of the contract's whole prize-asset balance to `to`. -/
def empty_contract (e : Env) (dest : Identifier) : Except Err Env := do
  let item_id ← get_item_id e.data
  let client := e.tokens item_id
  let amount := client.balances (get_contract_id e)
  let t ← xfer client (get_contract_id e) dest amount
  pure (setToken e item_id t)

/-- The `initialize` entry point from `src/lib.rs` lines 185–207 (named `init`
here because its source name is reserved in Lean), with the ledger timestamp
passed explicitly as `time`; no validation of the price or slope arguments. -/
def init (d : ContractData) (time : Nat) (admin : Identifier)
    (token_id item_id : TokenId) (starting_price minimum_price slope : Int) :
    Except Err ContractData :=
  if has_administrator d then Except.error Err.alreadyInitialized
  else Except.ok
    { admin := some admin
      tokenId := some token_id
      itemId := some item_id
      price := some starting_price
      minPrice := some minimum_price
      timestamp := some time
      slope := some slope
      nonces := d.nonces }

/-- Rust `nonce`: `read_nonce(e, read_administrator(e))`. -/
def nonce (d : ContractData) : Except Err Int := do
  let a ← read_administrator d
  pure (read_nonce d a)

/-- Rust `buy` from `src/lib.rs` lines 213–217: price the lot, settle the payment
leg, then release the whole prize balance. -/
def buy (e : Env) (frm : Identifier) : Except Err Env := do
  let price ← compute_price e.data e.time
  let e1 ← transfer_to_admin e frm price
  empty_contract e1 frm

/-- Rust `get_price`: `compute_price` at the current ledger timestamp. -/
def get_price (e : Env) : Except Err Int :=
  compute_price e.data e.time

/-- All seven configuration keys written by `initialize` are present. -/
def Initialized (d : ContractData) : Prop :=
  d.admin.isSome = true ∧ d.tokenId.isSome = true ∧ d.itemId.isSome = true ∧
  d.price.isSome = true ∧ d.minPrice.isSome = true ∧ d.timestamp.isSome = true ∧
  d.slope.isSome = true

instance (d : ContractData) : Decidable (Initialized d) := by
  unfold Initialized; infer_instance

deriving instance DecidableEq for Except

/-! ## Helper lemmas -/

lemma exbind_ok {α β : Type} (x : Except Err α) (f : α → Except Err β) (b : β) :
    (x >>= f = Except.ok b) ↔ ∃ a, x = Except.ok a ∧ f a = Except.ok b := by
  cases x <;> simp [Bind.bind, Except.bind]

lemma exbind_error {α β : Type} (x : Except Err α) (f : α → Except Err β) (er : Err) :
    (x >>= f = Except.error er) ↔
      x = Except.error er ∨ ∃ a, x = Except.ok a ∧ f a = Except.error er := by
  cases x <;> simp [Bind.bind, Except.bind]

lemma compute_price_ok (d : ContractData) (t t0 : Nat) (k : Int)
    (ht0 : d.timestamp = some t0) (hk : d.slope = some k) (hk0 : k ≠ 0) (ht : t0 ≤ t) :
    compute_price d t =
      Except.ok (max (get_starting_price d - Int.tdiv ((t - t0 : Nat) : Int) k)
        (get_minimum_price d)) := by
  unfold compute_price get_starting_time get_slope checked_sub bigint_div
  rw [ht0, hk]
  simp only [ht, if_true, hk0, if_false, Bind.bind, Except.bind, pure, Except.pure,
    Int.ofNat_eq_natCast]
  rcases lt_or_le (get_starting_price d - Int.tdiv ((t - t0 : Nat) : Int) k)
      (get_minimum_price d) with h | h
  · rw [if_pos h, max_eq_right (le_of_lt h)]
  · rw [if_neg (not_lt.mpr h), max_eq_left h]

lemma tdiv_mono_num (a b k : Int) (ha : 0 ≤ a) (hab : a ≤ b) (hk : 0 < k) :
    Int.tdiv a k ≤ Int.tdiv b k := by
  rw [Int.tdiv_eq_ediv ha (le_of_lt hk), Int.tdiv_eq_ediv (le_trans ha hab) (le_of_lt hk)]
  exact Int.ediv_le_ediv hk hab

/-! ## Pricing claims -/

/-- C2: for every initialized auction with stored decay rate `k > 0` and every
ledger time at or after the start time, `compute_price` (and hence `get_price`)
returns `max(starting_price - floor(elapsed / decay_rate), minimum_price)`,
the division being integer floor division. -/
theorem compute_price_closed_form (e : Env) (t0 : Nat) (k sp mp : Int)
    (hinit : Initialized e.data)
    (ht0 : e.data.timestamp = some t0) (hk : e.data.slope = some k) (hkpos : 0 < k)
    (hsp : e.data.price = some sp) (hmp : e.data.minPrice = some mp)
    (ht : t0 ≤ e.time) :
    compute_price e.data e.time =
      Except.ok (max (sp - Int.fdiv ((e.time - t0 : Nat) : Int) k) mp) ∧
    get_price e =
      Except.ok (max (sp - Int.fdiv ((e.time - t0 : Nat) : Int) k) mp) := by
  have h := compute_price_ok e.data e.time t0 k ht0 hk (ne_of_gt hkpos) ht
  have hsp' : get_starting_price e.data = sp := by simp [get_starting_price, hsp]
  have hmp' : get_minimum_price e.data = mp := by simp [get_minimum_price, hmp]
  rw [hsp', hmp', Int.tdiv_eq_ediv (Int.natCast_nonneg _) (le_of_lt hkpos),
    ← Int.fdiv_eq_ediv _ (le_of_lt hkpos)] at h
  exact ⟨h, by unfold get_price; exact h⟩

/-- C5: for every initialized auction with stored decay rate `k > 0` and
ledger times `t1 < t2` both at or after the start time, the computed price at
`t2` is at most the computed price at `t1` (monotone non-increase). -/
theorem compute_price_antitone (d : ContractData) (t0 t1 t2 : Nat) (k p1 p2 : Int)
    (hinit : Initialized d) (ht0 : d.timestamp = some t0) (hk : d.slope = some k)
    (hkpos : 0 < k) (h1 : t0 ≤ t1) (h2 : t0 ≤ t2) (h12 : t1 < t2)
    (hp1 : compute_price d t1 = Except.ok p1)
    (hp2 : compute_price d t2 = Except.ok p2) :
    p2 ≤ p1 := by
  rw [compute_price_ok d t1 t0 k ht0 hk (ne_of_gt hkpos) h1] at hp1
  rw [compute_price_ok d t2 t0 k ht0 hk (ne_of_gt hkpos) h2] at hp2
  have e1 := Except.ok.inj hp1
  have e2 := Except.ok.inj hp2
  subst e1; subst e2
  have hq : Int.tdiv ((t1 - t0 : Nat) : Int) k ≤ Int.tdiv ((t2 - t0 : Nat) : Int) k :=
    tdiv_mono_num _ _ k (Int.natCast_nonneg _)
      (Nat.cast_le.mpr (Nat.sub_le_sub_right (le_of_lt h12) t0)) hkpos
  exact max_le_max (sub_le_sub_left hq _) le_rfl

/-- C6: for every initialized auction with stored decay rate `k > 0` and every
ledger time at or after the start time, the computed price is at least the
stored minimum price — the floor clamp is unconditional and never expires. -/
theorem compute_price_ge_minimum (d : ContractData) (t0 t : Nat) (k mp p : Int)
    (hinit : Initialized d) (ht0 : d.timestamp = some t0) (hk : d.slope = some k)
    (hkpos : 0 < k) (hmp : d.minPrice = some mp) (ht : t0 ≤ t)
    (hp : compute_price d t = Except.ok p) :
    mp ≤ p := by
  rw [compute_price_ok d t t0 k ht0 hk (ne_of_gt hkpos) ht] at hp
  have hmp' : get_minimum_price d = mp := by simp [get_minimum_price, hmp]
  have hh := Except.ok.inj hp
  subst hh
  rw [hmp']
  exact le_max_right _ _

/-- An initialized configuration whose minimum price (5) exceeds its starting
price (1); `initialize` performs no validation, so this state is reachable. -/
def mispricedData : ContractData :=
  { admin := some (Identifier.Account 1), tokenId := some 10, itemId := some 20,
    price := some 1, minPrice := some 5, timestamp := some 0, slope := some 1,
    nonces := [] }

/-- C8 counterexample: an initialized auction whose stored minimum price
exceeds its starting price yields `compute_price(start_time) = minimum_price`,
not the stored starting price. -/
theorem compute_price_at_start_ne_starting_price :
    Initialized mispricedData ∧ mispricedData.timestamp = some 0 ∧
    get_starting_price mispricedData = 1 ∧
    compute_price mispricedData 0 = Except.ok 5 ∧
    compute_price mispricedData 0 ≠ Except.ok (get_starting_price mispricedData) :=
  ⟨by decide, rfl, rfl, by decide, by decide⟩

/-- C8 (amended): for every initialized auction with nonzero stored decay rate
and `minimum_price ≤ starting_price`, `compute_price` at the stored start time
returns exactly the stored starting price. -/
theorem compute_price_at_start (d : ContractData) (t0 : Nat) (k sp mp : Int)
    (hinit : Initialized d) (ht0 : d.timestamp = some t0) (hk : d.slope = some k)
    (hk0 : k ≠ 0) (hsp : d.price = some sp) (hmp : d.minPrice = some mp)
    (hle : mp ≤ sp) :
    compute_price d t0 = Except.ok sp := by
  rw [compute_price_ok d t0 t0 k ht0 hk hk0 le_rfl]
  simp [get_starting_price, hsp, get_minimum_price, hmp, Nat.sub_self,
    Int.zero_tdiv, sub_zero, max_eq_left hle]


/-! ## Getter equation lemmas -/

lemma get_token_id_some {d : ContractData} {tok : TokenId} (h : d.tokenId = some tok) :
    get_token_id d = Except.ok tok := by
  unfold get_token_id; rw [h]

lemma get_item_id_some {d : ContractData} {itm : TokenId} (h : d.itemId = some itm) :
    get_item_id d = Except.ok itm := by
  unfold get_item_id; rw [h]

lemma read_administrator_some {d : ContractData} {a : Identifier} (h : d.admin = some a) :
    read_administrator d = Except.ok a := by
  unfold read_administrator; rw [h]

lemma setToken_data (e : Env) (id : TokenId) (t : TokenState) :
    (setToken e id t).data = e.data := rfl

lemma setToken_current (e : Env) (id : TokenId) (t : TokenState) :
    (setToken e id t).current = e.current := rfl

lemma setToken_tokens (e : Env) (id : TokenId) (t : TokenState) (j : TokenId) :
    (setToken e id t).tokens j = if j = id then t else e.tokens j := rfl

lemma setBal_balances (t : TokenState) (i : Identifier) (v : Int) (j : Identifier) :
    (setBal t i v).balances j = if j = i then v else t.balances j := rfl

lemma setAllow_balances (t : TokenState) (o s : Identifier) (v : Int) :
    (setAllow t o s v).balances = t.balances := rfl

/-! ## Error-shape lemmas -/

lemma xfer_err {t : TokenState} {i dst : Identifier} {a : Int} {er : Err}
    (h : xfer t i dst a = Except.error er) : er = Err.xferRejected := by
  unfold xfer at h
  split_ifs at h
  exact (Except.error.inj h).symm

lemma xfer_from_err {t : TokenState} {sp frm dst : Identifier} {a : Int} {er : Err}
    (h : xfer_from t sp frm dst a = Except.error er) : er = Err.xferRejected := by
  unfold xfer_from at h
  split_ifs at h
  exact (Except.error.inj h).symm

lemma compute_price_err (d : ContractData) (t t0 : Nat) (er : Err)
    (ht0 : d.timestamp = some t0) (ht : t0 ≤ t)
    (h : compute_price d t = Except.error er) :
    er = Err.missingData ∨ er = Err.divZero := by
  unfold compute_price get_starting_time checked_sub get_slope bigint_div at h
  rw [ht0] at h
  simp only [Bind.bind, Except.bind, ht, if_true] at h
  rcases hs : d.slope with _ | s <;> rw [hs] at h <;> simp only [] at h
  · left; exact (Except.error.inj h).symm
  · by_cases hz : s = 0
    · rw [if_pos hz] at h
      simp only [Except.bind] at h
      right; exact (Except.error.inj h).symm
    · rw [if_neg hz] at h
      simp only [Except.bind] at h
      split_ifs at h <;> exact Except.noConfusion h

lemma transfer_to_admin_err {e : Env} {frm : Identifier} {a : Int} {er : Err}
    (h : transfer_to_admin e frm a = Except.error er) :
    er = Err.missingData ∨ er = Err.xferRejected := by
  unfold transfer_to_admin get_token_id read_administrator at h
  rcases htok : e.data.tokenId with _ | tok <;> rw [htok] at h <;> simp only [Bind.bind, Except.bind] at h
  · left; exact (Except.error.inj h).symm
  · rcases hadm : e.data.admin with _ | adm <;> rw [hadm] at h <;> simp only [] at h
    · left; exact (Except.error.inj h).symm
    · rcases hx : xfer_from (e.tokens tok) (get_contract_id e) frm adm a with er2 | t2 <;>
        rw [hx] at h <;> simp only [Except.bind] at h
      · right
        rw [← (Except.error.inj h)]
        exact xfer_from_err hx
      · simp only [pure, Except.pure] at h
        exact Except.noConfusion h

lemma empty_contract_err {e : Env} {dst : Identifier} {er : Err}
    (h : empty_contract e dst = Except.error er) :
    er = Err.missingData ∨ er = Err.xferRejected := by
  unfold empty_contract get_item_id at h
  rcases hitm : e.data.itemId with _ | itm <;> rw [hitm] at h <;> simp only [Bind.bind, Except.bind] at h
  · left; exact (Except.error.inj h).symm
  · rcases hx : xfer (e.tokens itm) (get_contract_id e)
        dst ((e.tokens itm).balances (get_contract_id e)) with er2 | t2 <;>
      rw [hx] at h <;> simp only [Except.bind] at h
    · right
      rw [← (Except.error.inj h)]
      exact xfer_err hx
    · simp only [pure, Except.pure] at h
      exact Except.noConfusion h


lemma xfer_ok_inv {t : TokenState} {i dst : Identifier} {a : Int} {t' : TokenState}
    (h : xfer t i dst a = Except.ok t') :
    (0 ≤ a ∧ a ≤ t.balances i) ∧
      t' = setBal (setBal t i (t.balances i - a)) dst
        ((setBal t i (t.balances i - a)).balances dst + a) := by
  unfold xfer at h
  split_ifs at h with hc
  exact ⟨hc, (Except.ok.inj h).symm⟩

lemma xfer_from_ok_inv {t : TokenState} {sp frm dst : Identifier} {a : Int} {t' : TokenState}
    (h : xfer_from t sp frm dst a = Except.ok t') :
    (0 ≤ a ∧ a ≤ t.allowances frm sp ∧ a ≤ t.balances frm) ∧
      t' = setAllow
        (setBal (setBal t frm (t.balances frm - a)) dst
          ((setBal t frm (t.balances frm - a)).balances dst + a))
        frm sp (t.allowances frm sp - a) := by
  unfold xfer_from at h
  split_ifs at h with hc
  exact ⟨hc, (Except.ok.inj h).symm⟩

/-! ## Lifecycle and settlement claims -/

/-- C3: once `initialize` has succeeded, every further `initialize` call (with
any arguments) fails with `AlreadyInitialized`, and the state the first call
produced holds exactly the seven configuration values the first call wrote. -/
theorem init_twice_rejected (d : ContractData) (t : Nat) (a : Identifier)
    (tok itm : TokenId) (sp mp k : Int) (d' : ContractData)
    (h : init d t a tok itm sp mp k = Except.ok d')
    (t2 : Nat) (a2 : Identifier) (tok2 itm2 : TokenId) (sp2 mp2 k2 : Int) :
    init d' t2 a2 tok2 itm2 sp2 mp2 k2 = Except.error Err.alreadyInitialized ∧
    d'.admin = some a ∧ d'.tokenId = some tok ∧ d'.itemId = some itm ∧
    d'.price = some sp ∧ d'.minPrice = some mp ∧ d'.timestamp = some t ∧
    d'.slope = some k := by
  unfold init at h
  split_ifs at h with hadm
  have hd := Except.ok.inj h
  subst hd
  refine ⟨?_, rfl, rfl, rfl, rfl, rfl, rfl, rfl⟩
  simp [init, has_administrator]

/-- A wholly uninitialized contract instance: no key was ever written. -/
def emptyData : ContractData :=
  { admin := none, tokenId := none, itemId := none, price := none,
    minPrice := none, timestamp := none, slope := none, nonces := [] }

/-- C7 counterexample: before `initialize` has ever succeeded the admin key is
absent, and `nonce()` aborts (`get_unchecked` panics on the missing `Admin`
key) instead of succeeding. -/
theorem nonce_uninitialized_aborts :
    has_administrator emptyData = false ∧
    nonce emptyData = Except.error Err.missingData :=
  ⟨rfl, by decide⟩

/-- C7 (amended): in every state whose admin key is set — in particular in
every initialized state — `nonce()` succeeds and returns the admin identity's
stored nonce, defaulting to zero when no nonce was ever set. -/
theorem nonce_returns_admin_nonce (d : ContractData) (a : Identifier)
    (h : d.admin = some a) :
    nonce d = Except.ok ((lookupNonce d.nonces a).getD 0) := by
  unfold nonce read_nonce
  rw [read_administrator_some h]
  simp only [Bind.bind, Except.bind, pure, Except.pure]

/-- C9: when the ledger time is at or after the stored start time, the
elapsed-time subtraction in `compute_price` never underflows, so neither
`compute_price` nor `get_price` nor `buy` can abort with the underflow trap. -/
theorem elapsed_sub_no_underflow (e : Env) (frm : Identifier) (t0 : Nat)
    (ht0 : e.data.timestamp = some t0) (ht : t0 ≤ e.time) :
    checked_sub e.time t0 = Except.ok (e.time - t0) ∧
    compute_price e.data e.time ≠ Except.error Err.underflow ∧
    get_price e ≠ Except.error Err.underflow ∧
    buy e frm ≠ Except.error Err.underflow := by
  have hcs : checked_sub e.time t0 = Except.ok (e.time - t0) := by
    unfold checked_sub; rw [if_pos ht]
  have hcp : compute_price e.data e.time ≠ Except.error Err.underflow := by
    intro h
    rcases compute_price_err e.data e.time t0 Err.underflow ht0 ht h with h' | h' <;>
      exact absurd h' (by decide)
  refine ⟨hcs, hcp, hcp, ?_⟩
  intro h
  unfold buy at h
  rcases hres : compute_price e.data e.time with er | p <;> rw [hres] at h <;>
    simp only [Bind.bind, Except.bind] at h
  · rw [Except.error.inj h] at hres
    exact hcp hres
  · rcases hta : transfer_to_admin e frm p with er2 | e1 <;> rw [hta] at h <;>
      simp only [Except.bind] at h
    · rcases transfer_to_admin_err hta with h' | h' <;>
        rw [Except.error.inj h] at h' <;> exact absurd h' (by decide)
    · rcases empty_contract_err h with h' | h' <;> exact absurd h' (by decide)

/-- C10: `initialize` accepts a zero decay rate without validation, and in the
resulting state every `get_price` or `buy` call at or after the start time
aborts with the division-by-zero trap in `compute_price`. -/
theorem slope_zero_aborts_div_zero (d0 : ContractData) (t0 : Nat) (a : Identifier)
    (tok itm : TokenId) (sp mp : Int) (e : Env) (frm : Identifier)
    (h0 : has_administrator d0 = false)
    (he : init d0 t0 a tok itm sp mp 0 = Except.ok e.data)
    (ht : t0 ≤ e.time) :
    compute_price e.data e.time = Except.error Err.divZero ∧
    get_price e = Except.error Err.divZero ∧
    buy e frm = Except.error Err.divZero := by
  unfold init at he
  split_ifs at he with hc
  have hd := Except.ok.inj he
  have hts : e.data.timestamp = some t0 := by rw [← hd]
  have hsl : e.data.slope = some 0 := by rw [← hd]
  have hcp : compute_price e.data e.time = Except.error Err.divZero := by
    unfold compute_price get_starting_time checked_sub get_slope bigint_div
    rw [hts, hsl]
    simp only [Bind.bind, Except.bind, ht, if_true]
  refine ⟨hcp, hcp, ?_⟩
  unfold buy
  rw [hcp]
  rfl


/-- C1: a successful `buy(frm)` moves exactly the quoted price of payment
asset from the buyer to the admin and the whole prize stock from the contract
to the buyer: the buyer's payment balance drops by `get_price()` at call time,
the admin's payment balance rises by the same amount, the contract's prize
balance becomes exactly zero, and the buyer's prize balance rises by the
contract's pre-call prize balance.  The payment and prize assets are distinct
token instances, and the buyer is neither the admin nor the auction contract
itself. -/
theorem buy_settles_both_legs (e e' : Env) (frm adm : Identifier) (tok itm : TokenId)
    (price : Int) (hinit : Initialized e.data)
    (htok : e.data.tokenId = some tok) (hitm : e.data.itemId = some itm)
    (hadm : e.data.admin = some adm) (hdistinct : tok ≠ itm)
    (hfa : frm ≠ adm) (hfc : frm ≠ get_contract_id e)
    (hprice : get_price e = Except.ok price)
    (hbuy : buy e frm = Except.ok e') :
    (e'.tokens tok).balances frm = (e.tokens tok).balances frm - price ∧
    (e'.tokens tok).balances adm = (e.tokens tok).balances adm + price ∧
    (e'.tokens itm).balances (get_contract_id e) = 0 ∧
    (e'.tokens itm).balances frm =
      (e.tokens itm).balances frm + (e.tokens itm).balances (get_contract_id e) := by
  have hp : compute_price e.data e.time = Except.ok price := hprice
  have hfc' : frm ≠ Identifier.Contract e.current := hfc
  unfold buy at hbuy
  rw [hp] at hbuy
  simp only [Bind.bind, Except.bind] at hbuy
  unfold transfer_to_admin at hbuy
  rw [get_token_id_some htok, read_administrator_some hadm] at hbuy
  simp only [Bind.bind, Except.bind] at hbuy
  rcases hx : xfer_from (e.tokens tok) (get_contract_id e) frm adm price with er1 | t1 <;>
    rw [hx] at hbuy <;> simp only [Except.bind, pure, Except.pure] at hbuy
  · exact Except.noConfusion hbuy
  unfold empty_contract at hbuy
  rw [get_item_id_some (d := (setToken e tok t1).data) hitm] at hbuy
  simp only [Bind.bind, Except.bind, setToken_data, setToken_current, setToken_tokens,
    get_contract_id] at hbuy
  rw [if_neg (Ne.symm hdistinct)] at hbuy
  rcases hx2 : xfer (e.tokens itm) (Identifier.Contract e.current) frm
      ((e.tokens itm).balances (Identifier.Contract e.current)) with er2 | t2 <;>
    rw [hx2] at hbuy <;> simp only [Except.bind, pure, Except.pure] at hbuy
  · exact Except.noConfusion hbuy
  have he' := (Except.ok.inj hbuy).symm
  subst he'
  obtain ⟨-, ht1⟩ := xfer_from_ok_inv hx
  obtain ⟨-, ht2⟩ := xfer_ok_inv hx2
  subst ht1
  subst ht2
  refine ⟨?_, ?_, ?_, ?_⟩ <;>
    simp [setToken_tokens, setBal_balances, setAllow_balances, get_contract_id,
      hdistinct, Ne.symm hdistinct, hfa, Ne.symm hfa, hfc', Ne.symm hfc']

/-- C4: when the buyer's authorized payment allowance toward the auction
contract is below the current price, `buy` fails with a rejected transfer; the
host rolls the aborted call back as a unit, so no balance and no contract
state changes — the pre-call state stands and no fractional settlement occurs. -/
theorem buy_rejected_on_insufficient_allowance (e : Env) (frm adm : Identifier)
    (tok : TokenId) (price : Int)
    (hinit : Initialized e.data)
    (htok : e.data.tokenId = some tok) (hadm : e.data.admin = some adm)
    (hprice : get_price e = Except.ok price)
    (hallow : (e.tokens tok).allowances frm (get_contract_id e) < price) :
    buy e frm = Except.error Err.xferRejected := by
  have hp : compute_price e.data e.time = Except.ok price := hprice
  unfold buy
  rw [hp]
  simp only [Bind.bind, Except.bind]
  unfold transfer_to_admin
  rw [get_token_id_some htok, read_administrator_some hadm]
  simp only [Bind.bind, Except.bind]
  unfold xfer_from
  have hnc : ¬(0 ≤ price ∧ price ≤ (e.tokens tok).allowances frm (get_contract_id e) ∧
      price ≤ (e.tokens tok).balances frm) := by
    rintro ⟨h1, h2, h3⟩
    exact absurd h2 (not_le.mpr hallow)
  rw [if_neg hnc]


/-! ## Concrete fixtures, mirroring the repository integration test:
starting price 5, minimum price 1, slope 900, payment asset 10, prize asset
20, admin `Account 1`, buyer `Account 2` holding 1000 payment units with 3
units authorized, auction contract 99 holding 10 prize units, 1800 seconds
after a start time of 0. -/

def specData : ContractData :=
  { admin := some (Identifier.Account 1), tokenId := some 10, itemId := some 20,
    price := some 5, minPrice := some 1, timestamp := some 0, slope := some 900,
    nonces := [] }

def paymentToken : TokenState :=
  { balances := fun i => if i = Identifier.Account 2 then 1000 else 0,
    allowances := fun o s =>
      if o = Identifier.Account 2 ∧ s = Identifier.Contract 99 then 3 else 0 }

def prizeToken : TokenState :=
  { balances := fun i => if i = Identifier.Contract 99 then 10 else 0,
    allowances := fun _ _ => 0 }

def zeroToken : TokenState :=
  { balances := fun _ => 0, allowances := fun _ _ => 0 }

def specEnv : Env :=
  { data := specData
    tokens := fun j => if j = 10 then paymentToken else if j = 20 then prizeToken else zeroToken
    current := 99
    time := 1800 }

def specEnvAfterBuy : Env :=
  ((buy specEnv (Identifier.Account 2)).toOption).getD specEnv

/-! ## Witnesses -/

theorem buy_settles_both_legs_witness :
    buy specEnv (Identifier.Account 2) = Except.ok specEnvAfterBuy ∧
    ((specEnvAfterBuy.tokens 10).balances (Identifier.Account 2) =
        (specEnv.tokens 10).balances (Identifier.Account 2) - 3 ∧
      (specEnvAfterBuy.tokens 10).balances (Identifier.Account 1) =
        (specEnv.tokens 10).balances (Identifier.Account 1) + 3 ∧
      (specEnvAfterBuy.tokens 20).balances (get_contract_id specEnv) = 0 ∧
      (specEnvAfterBuy.tokens 20).balances (Identifier.Account 2) =
        (specEnv.tokens 20).balances (Identifier.Account 2) +
          (specEnv.tokens 20).balances (get_contract_id specEnv)) := by
  have hb : buy specEnv (Identifier.Account 2) = Except.ok specEnvAfterBuy := rfl
  exact ⟨hb, buy_settles_both_legs specEnv specEnvAfterBuy (Identifier.Account 2)
    (Identifier.Account 1) 10 20 3 (by decide) rfl rfl rfl (by decide) (by decide)
    (by decide) (by decide) hb⟩

theorem compute_price_closed_form_witness :
    Initialized specEnv.data ∧ (0:Int) < 900 ∧ 0 ≤ specEnv.time ∧
    (compute_price specEnv.data specEnv.time =
        Except.ok (max ((5:Int) - Int.fdiv ((specEnv.time - 0 : Nat) : Int) 900) 1) ∧
      get_price specEnv =
        Except.ok (max ((5:Int) - Int.fdiv ((specEnv.time - 0 : Nat) : Int) 900) 1)) :=
  ⟨by decide, by decide, by decide,
    compute_price_closed_form specEnv 0 900 5 1 (by decide) rfl rfl (by decide) rfl rfl
      (by decide)⟩

theorem init_twice_rejected_witness :
    init emptyData 0 (Identifier.Account 1) 10 20 5 1 900 = Except.ok specData ∧
    (init specData 7 (Identifier.Account 3) 11 21 6 2 800 =
        Except.error Err.alreadyInitialized ∧
      specData.admin = some (Identifier.Account 1) ∧ specData.tokenId = some 10 ∧
      specData.itemId = some 20 ∧ specData.price = some 5 ∧
      specData.minPrice = some 1 ∧ specData.timestamp = some 0 ∧
      specData.slope = some 900) := by
  have h : init emptyData 0 (Identifier.Account 1) 10 20 5 1 900 = Except.ok specData := by
    decide
  exact ⟨h, init_twice_rejected emptyData 0 (Identifier.Account 1) 10 20 5 1 900 specData h
    7 (Identifier.Account 3) 11 21 6 2 800⟩

theorem buy_rejected_on_insufficient_allowance_witness :
    Initialized specEnv.data ∧
    (specEnv.tokens 10).allowances (Identifier.Account 3) (get_contract_id specEnv) < 3 ∧
    buy specEnv (Identifier.Account 3) = Except.error Err.xferRejected :=
  ⟨by decide, by decide,
    buy_rejected_on_insufficient_allowance specEnv (Identifier.Account 3)
      (Identifier.Account 1) 10 3 (by decide) rfl rfl (by decide) (by decide)⟩

theorem compute_price_antitone_witness :
    compute_price specData 900 = Except.ok 4 ∧ compute_price specData 1800 = Except.ok 3 ∧
    (3:Int) ≤ 4 :=
  ⟨by decide, by decide,
    compute_price_antitone specData 0 900 1800 900 4 3 (by decide) rfl rfl (by decide)
      (by decide) (by decide) (by decide) (by decide) (by decide)⟩

theorem compute_price_ge_minimum_witness :
    compute_price specData 36000 = Except.ok 1 ∧ (1:Int) ≤ 1 :=
  ⟨by decide,
    compute_price_ge_minimum specData 0 36000 900 1 1 (by decide) rfl rfl (by decide) rfl
      (by decide) (by decide)⟩

theorem nonce_returns_admin_nonce_witness :
    specData.admin = some (Identifier.Account 1) ∧
    nonce specData =
      Except.ok ((lookupNonce specData.nonces (Identifier.Account 1)).getD 0) :=
  ⟨rfl, nonce_returns_admin_nonce specData (Identifier.Account 1) rfl⟩

theorem compute_price_at_start_witness :
    (1:Int) ≤ 5 ∧ compute_price specData 0 = Except.ok 5 :=
  ⟨by decide,
    compute_price_at_start specData 0 900 5 1 (by decide) rfl rfl (by decide) rfl rfl
      (by decide)⟩

theorem elapsed_sub_no_underflow_witness :
    specEnv.data.timestamp = some 0 ∧ 0 ≤ specEnv.time ∧
    (checked_sub specEnv.time 0 = Except.ok (specEnv.time - 0) ∧
      compute_price specEnv.data specEnv.time ≠ Except.error Err.underflow ∧
      get_price specEnv ≠ Except.error Err.underflow ∧
      buy specEnv (Identifier.Account 2) ≠ Except.error Err.underflow) :=
  ⟨rfl, by decide,
    elapsed_sub_no_underflow specEnv (Identifier.Account 2) 0 rfl (by decide)⟩

def zeroSlopeEnv : Env :=
  { data := ((init emptyData 0 (Identifier.Account 1) 10 20 5 1 0).toOption).getD emptyData
    tokens := fun j => if j = 10 then paymentToken else if j = 20 then prizeToken else zeroToken
    current := 99
    time := 1800 }

theorem slope_zero_aborts_div_zero_witness :
    has_administrator emptyData = false ∧
    init emptyData 0 (Identifier.Account 1) 10 20 5 1 0 = Except.ok zeroSlopeEnv.data ∧
    0 ≤ zeroSlopeEnv.time ∧
    (compute_price zeroSlopeEnv.data zeroSlopeEnv.time = Except.error Err.divZero ∧
      get_price zeroSlopeEnv = Except.error Err.divZero ∧
      buy zeroSlopeEnv (Identifier.Account 2) = Except.error Err.divZero) := by
  have hi : init emptyData 0 (Identifier.Account 1) 10 20 5 1 0 =
      Except.ok zeroSlopeEnv.data := by decide
  exact ⟨rfl, hi, by decide,
    slope_zero_aborts_div_zero emptyData 0 (Identifier.Account 1) 10 20 5 1 zeroSlopeEnv
      (Identifier.Account 2) rfl hi (by decide)⟩

end DutchAuction




